import Mathlib

/-!
Verification of the support-agent question-routing engine (app.py).

The Python source is shallowly embedded: strings are Lean `String`s,
Python string primitives (lower, strip, split, splitlines, substring
containment) are modelled as structurally recursive functions on the
character list, and the floating-point scores (which in the source are
exact small-integer divisions and the literals 0.6 / 0.99) are modelled
as rationals.  Whitespace is modelled as the ASCII whitespace characters
plus NEL and NBSP, matching the characters Python treats as whitespace
on the inputs this program handles; line splitting is modelled on the
newline character, the separator used by the FAQ text format.
-/

/-- Model of Python whitespace for the character set this program handles:
the characters stripped by str.strip and used as separators by str.split. -/
def pyIsSpace (c : Char) : Bool :=
  c = ' ' || c = '\t' || c = '\n' || c = '\x0d' || c = '\x0b' || c = '\x0c' || c = '\x85' || c = '\xa0'

/-- Model of Python str.lower on a single character (ASCII case mapping). -/
def pyLowerChar (c : Char) : Char := c.toLower

/-- Model of Python str.lower. -/
def pyLower (s : String) : String := ⟨s.data.map pyLowerChar⟩

/-- Strip whitespace from both ends of a character list. -/
def trimChars (l : List Char) : List Char :=
  (l.dropWhile pyIsSpace).rdropWhile pyIsSpace

/-- Model of Python str.strip(). -/
def pyStrip (s : String) : String := ⟨trimChars s.data⟩

/-- Substring test on character lists: `isSubList pat l` holds when `pat`
occurs contiguously inside `l` (Python `pat in l`). -/
def isSubList (pat : List Char) : List Char → Bool
  | [] => pat.isPrefixOf []
  | c :: rest => pat.isPrefixOf (c :: rest) || isSubList pat rest

/-- Model of Python `sub in s` (substring containment). -/
def pyIn (sub s : String) : Bool := isSubList sub.data s.data

/-- Model of Python `s.startswith(p)`. -/
def pyStartsWith (s p : String) : Bool := p.data.isPrefixOf s.data

/-- Model of Python `s[2:]`. -/
def pyDrop2 (s : String) : String := ⟨s.data.drop 2⟩

/-- Accumulator loop behind `pySplitWs`. -/
def splitWsAux : List Char → List Char → List String
  | [], acc => if acc = [] then [] else [⟨acc.reverse⟩]
  | c :: rest, acc =>
    if pyIsSpace c then
      if acc = [] then splitWsAux rest [] else ⟨acc.reverse⟩ :: splitWsAux rest []
    else splitWsAux rest (c :: acc)

/-- Model of Python str.split() with no argument: split on whitespace runs,
producing no empty tokens. -/
def pySplitWs (s : String) : List String := splitWsAux s.data []

/-- Accumulator loop behind `pySplitlines`: split on the newline character,
keeping interior empty lines. -/
def splitNlAux : List Char → List Char → List String
  | [], acc => [⟨acc.reverse⟩]
  | c :: rest, acc =>
    if c = '\n' then ⟨acc.reverse⟩ :: splitNlAux rest [] else splitNlAux rest (c :: acc)

/-- Model of Python str.splitlines() on newline-separated text: the empty
string gives no lines, and a trailing newline does not produce a final
empty line. -/
def pySplitlines (s : String) : List String :=
  if s.data = [] then []
  else if s.data.getLast? = some '\n' then (splitNlAux s.data []).dropLast
  else splitNlAux s.data []

/-- Model of `"\n".join(...)`. -/
def joinNl : List String → String
  | [] => ""
  | [s] => s
  | s :: rest => s ++ "\n" ++ joinNl rest

-- ---------------------------------------------------------------------------
-- Matcher (app.py, faq_match)
-- ---------------------------------------------------------------------------

/-- Token set of a string: Python `set(s.split())`, modelled as the
deduplicated token list. -/
def tokenSet (s : String) : List String := (pySplitWs s).dedup

/-- Token-overlap score of app.py lines 45-50: the size of the intersection
of the two token sets divided by the size of the query token set, 0 when
the query has no tokens. -/
def overlapScore (q fq_l : String) : ℚ :=
  let qT := tokenSet q
  let fT := tokenSet fq_l
  if qT.length = 0 then 0
  else mkRat (qT.filter (fun t => fT.contains t)).length qT.length

/-- The scan loop of faq_match (app.py lines 39-53): the accumulator holds
the best answer and best score so far; a substring hit returns immediately
with score 0.99; otherwise only a strictly greater overlap score replaces
the running best. -/
def faqMatchGo (q : String) : List (String × String) → String → ℚ → String × ℚ
  | [], bestA, bestS => (bestA, bestS)
  | (fq, fa) :: rest, bestA, bestS =>
    let fq_l := pyLower fq
    if pyIn q fq_l || pyIn fq_l q then (fa, mkRat 99 100)
    else
      let score := overlapScore q fq_l
      if bestS < score then faqMatchGo q rest fa score
      else faqMatchGo q rest bestA bestS

/-- Model of faq_match (app.py lines 30-54). The query is lowercased and
stripped; each entry question is lowercased (the source does not strip it). -/
def faq_match (question : String) (faqs : List (String × String)) : String × ℚ :=
  faqMatchGo (pyStrip (pyLower question)) faqs "" 0

-- ---------------------------------------------------------------------------
-- Escalation (app.py, should_escalate)
-- ---------------------------------------------------------------------------

/-- Query escalation keywords of app.py line 91. -/
def q_kw : List String :=
  ["broken", "not working", "urgent", "can\x27t", "cannot", "failed", "error"]

/-- Answer escalation keywords of app.py line 92. -/
def a_kw : List String :=
  ["i\x27m not sure", "i do not know", "i may be wrong", "please contact", "escalate"]

/-- Model of should_escalate (app.py lines 90-97). -/
def should_escalate (question answer : String) : Bool :=
  q_kw.any (fun w => pyIn w (pyLower question)) ||
  a_kw.any (fun w => pyIn w (pyLower answer))

-- ---------------------------------------------------------------------------
-- Router (app.py, submission handler lines 186-200)
-- ---------------------------------------------------------------------------

/-- Answer source of a routing decision (spec data model, realised by the
three UI branches of the handler). -/
inductive Source
  | FAQ
  | GENERATED
  | ERROR
deriving DecidableEq

/-- Routing decision produced per query (spec data model). -/
structure RoutingDecision where
  answerText : String
  source : Source
  escalate : Bool
deriving DecidableEq

/-- Context string of app.py line 189: the first (at most) ten entries
rendered as Q:/A: blocks, newline-joined. -/
def contextText (faqs : List (String × String)) : String :=
  joinNl ((faqs.take 10).map (fun p => "Q: " ++ p.1 ++ "\nA: " ++ p.2))

/-- Model of the submission handler (app.py lines 186-200) on the already
stripped query.  `gen` is the generation collaborator; the second component
records the list of generation calls made, as (query, context) pairs. -/
def decideRoute (q : String) (faqs : List (String × String))
    (gen : String → String → String) :
    RoutingDecision × List (String × String) :=
  let best := faq_match q faqs
  let context_text := contextText faqs
  if mkRat 6 10 ≤ best.2 then
    ({ answerText := best.1, source := Source.FAQ, escalate := false }, [])
  else
    let llm_ans := gen q context_text
    let src := if pyStartsWith llm_ans "ERROR:" then Source.ERROR else Source.GENERATED
    ({ answerText := llm_ans, source := src,
       escalate := should_escalate q llm_ans }, [(q, context_text)])

-- ---------------------------------------------------------------------------
-- FAQ upload parser (app.py lines 112-140)
-- ---------------------------------------------------------------------------

/-- Parser state of the upload loop: flushed pairs, the open question and
answer fragments, and the mode (`some true` after a Q: line, `some false`
after an A: line, `none` initially). -/
structure ParseState where
  pairs : List (String × String)
  cur_q : String
  cur_a : String
  mode : Option Bool
deriving DecidableEq

/-- One iteration of the upload parsing loop (app.py lines 118-133): the
line is stripped, a Q: line flushes the open pair when both parts are
non-empty and opens a new question, an A: line replaces the open answer,
and any other line is appended to whichever part the mode has open. -/
def parseLine (s : ParseState) (raw_ln : String) : ParseState :=
  if pyStartsWith (pyLower (pyStrip raw_ln)) "q:" then
    if s.cur_q ≠ "" ∧ s.cur_a ≠ "" then
      ⟨s.pairs ++ [(s.cur_q, s.cur_a)], pyStrip (pyDrop2 (pyStrip raw_ln)), "", some true⟩
    else
      ⟨s.pairs, pyStrip (pyDrop2 (pyStrip raw_ln)), s.cur_a, some true⟩
  else if pyStartsWith (pyLower (pyStrip raw_ln)) "a:" then
    { s with cur_a := pyStrip (pyDrop2 (pyStrip raw_ln)), mode := some false }
  else
    match s.mode with
    | some true => { s with cur_q := s.cur_q ++ " " ++ pyStrip raw_ln }
    | some false => { s with cur_a := s.cur_a ++ " " ++ pyStrip raw_ln }
    | none => s

/-- Initial parser state. -/
def initState : ParseState := ⟨[], "", "", none⟩

/-- The trailing flush of app.py lines 134-135. -/
def finalizePairs (s : ParseState) : List (String × String) :=
  if s.cur_q ≠ "" ∧ s.cur_a ≠ "" then s.pairs ++ [(s.cur_q, s.cur_a)] else s.pairs

/-- Model of the upload parsing block (app.py lines 114-135): split the raw
text into lines, run the line loop, flush the trailing pair. -/
def parseFaqText (raw : String) : List (String × String) :=
  finalizePairs ((pySplitlines raw).foldl parseLine initState)

/-- Model of the load branch of the upload handler (app.py lines 136-140):
replace the knowledge base only when parsing produced at least one pair;
the Bool records whether the parse-error message was shown. -/
def uploadFaq (raw : String) (old : List (String × String)) :
    List (String × String) × Bool :=
  if parseFaqText raw = [] then (old, true) else (parseFaqText raw, false)

/-- Serialisation of entries as newline-joined Q:/A: blocks (the format of
app.py line 189 and of the documented upload format). -/
def serializeFaq (entries : List (String × String)) : String :=
  joinNl (entries.map (fun p => "Q: " ++ p.1 ++ "\nA: " ++ p.2))

/-- Default FAQ items (app.py, load_faq_items). -/
def load_faq_items : List (String × String) :=
  [("What are the office working hours?",
    "Office hours are 9:30 AM - 6:30 PM, Monday to Friday."),
   ("How to contact IT support?",
    "Email IT at it-support@example.com or call ext. 1234."),
   ("How to apply for leave?",
    "Use the HR portal -> Leave Request. Contact hr@example.com for urgent help.")]

-- ---------------------------------------------------------------------------
-- Derived notions used by the claims
-- ---------------------------------------------------------------------------

/-- The normalized query used inside faq_match. -/
def normQ (question : String) : String := pyStrip (pyLower question)

/-- The substring short-circuit test of app.py line 42, for a normalized
query against one entry. -/
def substrB (q : String) (e : String × String) : Bool :=
  pyIn q (pyLower e.1) || pyIn (pyLower e.1) q

/-- Maximum token-overlap score of a normalized query over a list of
entries (0 for the empty list). -/
def maxOverlap (q : String) (faqs : List (String × String)) : ℚ :=
  (faqs.map (fun e => overlapScore q (pyLower e.1))).foldr max 0

/-- Answer of the first entry whose overlap score attains `m` (empty string
when none does). -/
def firstBestAnswer (q : String) (faqs : List (String × String)) (m : ℚ) : String :=
  ((faqs.find? (fun e => decide (overlapScore q (pyLower e.1) = m))).map Prod.snd).getD ""

/-- Modelled from the spec wording for the no-substring case of the scan
invariant: the result is the maximum overlap score together with the answer
of the first entry attaining it, or ("", 0) when every score is zero. -/
def matcherNoSubSpec (q : String) (faqs : List (String × String)) : String × ℚ :=
  let m := maxOverlap q faqs
  if m = 0 then ("", 0) else (firstBestAnswer q faqs m, m)

-- ---------------------------------------------------------------------------
-- Character and string lemmas
-- ---------------------------------------------------------------------------

theorem string_eta (s : String) : String.mk s.data = s := rfl

theorem isSubList_iff {pat l : List Char} : isSubList pat l = true ↔ pat <:+: l := by
  induction l with
  | nil =>
    simp [isSubList, List.isPrefixOf_iff_prefix]
  | cons c rest ih =>
    simp only [isSubList, Bool.or_eq_true, List.isPrefixOf_iff_prefix, ih,
      List.infix_cons_iff]

theorem pyIn_of_sub {sub s : String} (h : sub.data <:+: s.data) :
    pyIn sub s = true := by
  simpa [pyIn] using isSubList_iff.mpr h

theorem trimChars_within (l : List Char) : trimChars l <:+: l :=
  (List.rdropWhile_prefix _ _).isInfix.trans (List.dropWhile_suffix _).isInfix

theorem pyIn_pyStrip (s : String) : pyIn (pyStrip s) s = true :=
  pyIn_of_sub (trimChars_within s.data)

theorem trimChars_parts {l : List Char} (h : trimChars l = l) :
    l.dropWhile pyIsSpace = l ∧ l.rdropWhile pyIsSpace = l := by
  have hsuf : l.dropWhile pyIsSpace <:+ l := List.dropWhile_suffix _
  have hpre : (l.dropWhile pyIsSpace).rdropWhile pyIsSpace <+: l.dropWhile pyIsSpace :=
    List.rdropWhile_prefix _ _
  have hlen1 : l.length ≤ (l.dropWhile pyIsSpace).length := by
    calc l.length = ((l.dropWhile pyIsSpace).rdropWhile pyIsSpace).length := by
          rw [show (l.dropWhile pyIsSpace).rdropWhile pyIsSpace = l from h]
      _ ≤ (l.dropWhile pyIsSpace).length := hpre.length_le
  have hdrop : l.dropWhile pyIsSpace = l :=
    hsuf.sublist.eq_of_length (Nat.le_antisymm hsuf.length_le hlen1)
  refine ⟨hdrop, ?_⟩
  have := h
  rwa [trimChars, hdrop] at this

theorem pyStrip_parts {s : String} (h : pyStrip s = s) :
    s.data.dropWhile pyIsSpace = s.data ∧ s.data.rdropWhile pyIsSpace = s.data := by
  apply trimChars_parts
  have : (pyStrip s).data = s.data := by rw [h]
  simpa [pyStrip] using this

-- ---------------------------------------------------------------------------
-- Matcher lemmas
-- ---------------------------------------------------------------------------

theorem overlapScore_nonneg (q f : String) : 0 ≤ overlapScore q f := by
  simp only [overlapScore]
  split
  · exact le_refl 0
  · rw [Rat.mkRat_eq_div]
    positivity

theorem overlapScore_le_one (q f : String) : overlapScore q f ≤ 1 := by
  simp only [overlapScore]
  split
  · exact zero_le_one
  · rename_i hne
    rw [Rat.mkRat_eq_div]
    rw [div_le_one (by positivity)]
    push_cast
    exact_mod_cast Nat.cast_le.mpr (List.length_filter_le _ _)

theorem maxOverlap_nonneg (q : String) (faqs : List (String × String)) :
    0 ≤ maxOverlap q faqs := by
  induction faqs with
  | nil => simp [maxOverlap]
  | cons e rest ih =>
    simp only [maxOverlap, List.map_cons, List.foldr_cons]
    exact le_max_of_le_right ih

theorem maxOverlap_cons (q : String) (e : String × String)
    (rest : List (String × String)) :
    maxOverlap q (e :: rest) = max (overlapScore q (pyLower e.1)) (maxOverlap q rest) := by
  simp [maxOverlap]

theorem faqMatchGo_shortCircuit (q : String) (e : String × String)
    (post : List (String × String)) (he : substrB q e = true) :
    ∀ (pre : List (String × String)) (bestA : String) (bestS : ℚ),
      (∀ e' ∈ pre, substrB q e' = false) →
      faqMatchGo q (pre ++ e :: post) bestA bestS = (e.2, mkRat 99 100) := by
  intro pre
  induction pre with
  | nil =>
    intro bestA bestS _
    obtain ⟨fq, fa⟩ := e
    simp only [List.nil_append, faqMatchGo]
    rw [show (pyIn q (pyLower fq) || pyIn (pyLower fq) q) = true from he]
    simp
  | cons e' pre' ih =>
    intro bestA bestS hpre
    obtain ⟨fq, fa⟩ := e'
    have h1 : substrB q (fq, fa) = false := hpre _ (List.mem_cons_self _ _)
    have h2 : ∀ x ∈ pre', substrB q x = false := fun x hx => hpre x (List.mem_cons_of_mem _ hx)
    simp only [List.cons_append, faqMatchGo]
    rw [show (pyIn q (pyLower fq) || pyIn (pyLower fq) q) = false from h1]
    simp only [Bool.false_eq_true, if_false]
    split
    · exact ih _ _ h2
    · exact ih _ _ h2

theorem faqMatchGo_noSub (q : String) :
    ∀ (faqs : List (String × String)) (bestA : String) (bestS : ℚ),
      (∀ e ∈ faqs, substrB q e = false) → 0 ≤ bestS →
      faqMatchGo q faqs bestA bestS =
        if maxOverlap q faqs ≤ bestS then (bestA, bestS)
        else (firstBestAnswer q faqs (maxOverlap q faqs), maxOverlap q faqs) := by
  intro faqs
  induction faqs with
  | nil =>
    intro bestA bestS _ h0
    simp only [faqMatchGo, maxOverlap, List.map_nil, List.foldr_nil]
    rw [if_pos h0]
  | cons e rest ih =>
    intro bestA bestS h h0
    obtain ⟨fq, fa⟩ := e
    have hsub : substrB q (fq, fa) = false := h _ (List.mem_cons_self _ _)
    have hrest : ∀ x ∈ rest, substrB q x = false := fun x hx => h x (List.mem_cons_of_mem _ hx)
    have hs0 : 0 ≤ overlapScore q (pyLower fq) := overlapScore_nonneg _ _
    have hM : maxOverlap q ((fq, fa) :: rest) =
        max (overlapScore q (pyLower fq)) (maxOverlap q rest) := maxOverlap_cons q _ rest
    simp only [faqMatchGo]
    rw [show (pyIn q (pyLower fq) || pyIn (pyLower fq) q) = false from hsub]
    simp only [Bool.false_eq_true, if_false]
    rw [hM]
    by_cases hlt : bestS < overlapScore q (pyLower fq)
    · rw [if_pos hlt, ih fa (overlapScore q (pyLower fq)) hrest hs0]
      have hnotle : ¬ max (overlapScore q (pyLower fq)) (maxOverlap q rest) ≤ bestS :=
        fun hle => absurd (le_trans (le_max_left _ _) hle) (not_le.mpr hlt)
      rw [if_neg hnotle]
      by_cases hc : maxOverlap q rest ≤ overlapScore q (pyLower fq)
      · rw [if_pos hc, max_eq_left hc]
        have hfind : firstBestAnswer q ((fq, fa) :: rest) (overlapScore q (pyLower fq)) = fa := by
          simp [firstBestAnswer, List.find?_cons_of_pos]
        rw [hfind]
      · rw [if_neg hc]
        have hmax : max (overlapScore q (pyLower fq)) (maxOverlap q rest) = maxOverlap q rest :=
          max_eq_right (le_of_lt (not_le.mp hc))
        rw [hmax]
        have hne : overlapScore q (pyLower fq) ≠ maxOverlap q rest :=
          ne_of_lt (not_le.mp hc)
        have hfind : firstBestAnswer q ((fq, fa) :: rest) (maxOverlap q rest) =
            firstBestAnswer q rest (maxOverlap q rest) := by
          simp only [firstBestAnswer]
          rw [List.find?_cons_of_neg]
          simp [hne]
        rw [hfind]
    · rw [if_neg hlt, ih bestA bestS hrest h0]
      have hsle : overlapScore q (pyLower fq) ≤ bestS := not_lt.mp hlt
      by_cases hc : maxOverlap q rest ≤ bestS
      · rw [if_pos hc, if_pos (max_le hsle hc)]
      · rw [if_neg hc]
        have hblt : bestS < maxOverlap q rest := not_le.mp hc
        have hmax : max (overlapScore q (pyLower fq)) (maxOverlap q rest) = maxOverlap q rest :=
          max_eq_right (le_trans hsle (le_of_lt hblt))
        rw [hmax]
        have hnotle : ¬ maxOverlap q rest ≤ bestS := hc
        rw [if_neg hnotle]
        have hne : overlapScore q (pyLower fq) ≠ maxOverlap q rest :=
          ne_of_lt (lt_of_le_of_lt hsle hblt)
        have hfind : firstBestAnswer q ((fq, fa) :: rest) (maxOverlap q rest) =
            firstBestAnswer q rest (maxOverlap q rest) := by
          simp only [firstBestAnswer]
          rw [List.find?_cons_of_neg]
          simp [hne]
        rw [hfind]

theorem faqMatchGo_score_bounds (q : String) (faqs : List (String × String))
    (bestA : String) (bestS : ℚ) (h0 : 0 ≤ bestS) (h1 : bestS ≤ 1) :
    0 ≤ (faqMatchGo q faqs bestA bestS).2 ∧ (faqMatchGo q faqs bestA bestS).2 ≤ 1 := by
  induction faqs generalizing bestA bestS with
  | nil => exact ⟨h0, h1⟩
  | cons e rest ih =>
    obtain ⟨fq, fa⟩ := e
    simp only [faqMatchGo]
    split
    · constructor
      · rw [Rat.mkRat_eq_div]
        positivity
      · rw [Rat.mkRat_eq_div]
        norm_num
    · split
      · exact ih _ _ (overlapScore_nonneg _ _) (overlapScore_le_one _ _)
      · exact ih _ _ h0 h1

theorem faqMatchGo_score99_of_mem (q : String) (e : String × String)
    (he : substrB q e = true) :
    ∀ (faqs : List (String × String)) (bestA : String) (bestS : ℚ),
      e ∈ faqs → (faqMatchGo q faqs bestA bestS).2 = mkRat 99 100 := by
  intro faqs
  induction faqs with
  | nil => intro bestA bestS hmem; cases hmem
  | cons f rest ih =>
    intro bestA bestS hmem
    obtain ⟨fq, fa⟩ := f
    by_cases hf : substrB q (fq, fa) = true
    · simp only [faqMatchGo]
      rw [show (pyIn q (pyLower fq) || pyIn (pyLower fq) q) = true from hf]
      simp
    · have hmem' : e ∈ rest := by
        rcases List.mem_cons.mp hmem with h | h
        · exact absurd (h ▸ he) hf
        · exact h
      simp only [faqMatchGo]
      rw [show (pyIn q (pyLower fq) || pyIn (pyLower fq) q) = false from
        Bool.not_eq_true _ ▸ eq_false_of_ne_true hf]
      simp only [Bool.false_eq_true, if_false]
      split
      · exact ih _ _ hmem'
      · exact ih _ _ hmem'

-- ---------------------------------------------------------------------------
-- Whitespace and lowercasing lemmas
-- ---------------------------------------------------------------------------

theorem mk_append (l₁ l₂ : List Char) :
    String.mk (l₁ ++ l₂) = String.mk l₁ ++ String.mk l₂ := rfl

theorem data_ne_nil {s : String} (h : s ≠ "") : s.data ≠ [] := by
  obtain ⟨l⟩ := s
  intro hl
  apply h
  show String.mk l = ""
  simp only at hl
  rw [hl]

theorem pyLower_append (s t : String) :
    pyLower (s ++ t) = pyLower s ++ pyLower t := by
  obtain ⟨ls⟩ := s
  obtain ⟨lt⟩ := t
  simp only [pyLower, String.data_append, List.map_append, mk_append]

theorem pyLowerChar_of_space {c : Char} (h : pyIsSpace c = true) :
    pyLowerChar c = c := by
  simp only [pyIsSpace, Bool.or_eq_true, decide_eq_true_eq] at h
  rcases h with (((((((h | h) | h) | h) | h) | h) | h) | h) <;> subst h <;> decide

theorem map_lower_of_space :
    ∀ {l : List Char}, (∀ c ∈ l, pyIsSpace c = true) → l.map pyLowerChar = l := by
  intro l
  induction l with
  | nil => intro _; rfl
  | cons c t ih =>
    intro h
    simp only [List.map_cons]
    rw [pyLowerChar_of_space (h c (List.mem_cons_self _ _)),
      ih (fun x hx => h x (List.mem_cons_of_mem _ hx))]

theorem pyLower_of_space {w : String} (h : ∀ c ∈ w.data, pyIsSpace c = true) :
    pyLower w = w := by
  obtain ⟨lw⟩ := w
  simp only [pyLower]
  congr 1
  exact map_lower_of_space h

theorem dropWhile_space_append {l₁ : List Char} (h : ∀ c ∈ l₁, pyIsSpace c = true)
    (m : List Char) :
    List.dropWhile pyIsSpace (l₁ ++ m) = List.dropWhile pyIsSpace m := by
  induction l₁ with
  | nil => rfl
  | cons c t ih =>
    simp only [List.cons_append, List.dropWhile_cons, h c (List.mem_cons_self _ _),
      if_true]
    exact ih (fun x hx => h x (List.mem_cons_of_mem _ hx))

theorem rdropWhile_append_space {l₂ : List Char} (h : ∀ c ∈ l₂, pyIsSpace c = true) :
    ∀ x : List Char, List.rdropWhile pyIsSpace (x ++ l₂) = List.rdropWhile pyIsSpace x := by
  induction l₂ with
  | nil => intro x; rw [List.append_nil]
  | cons c t ih =>
    intro x
    have : x ++ c :: t = (x ++ [c]) ++ t := by simp
    rw [this, ih (fun y hy => h y (List.mem_cons_of_mem _ hy)) (x ++ [c]),
      List.rdropWhile_concat_pos _ _ _ (h c (List.mem_cons_self _ _))]

theorem trimChars_pad {w₁ w₂ : List Char} (h₁ : ∀ c ∈ w₁, pyIsSpace c = true)
    (h₂ : ∀ c ∈ w₂, pyIsSpace c = true) (l : List Char) :
    trimChars (w₁ ++ l ++ w₂) = trimChars l := by
  simp only [trimChars, List.append_assoc]
  rw [dropWhile_space_append h₁]
  rw [List.dropWhile_append]
  split
  · rename_i hemp
    have hl : List.dropWhile pyIsSpace l = [] := by
      simp only [List.isEmpty_iff] at hemp
      exact hemp
    rw [hl, List.rdropWhile_nil]
    have : List.dropWhile pyIsSpace w₂ = [] := List.dropWhile_eq_nil_iff.mpr h₂
    rw [this, List.rdropWhile_nil]
  · exact rdropWhile_append_space h₂ _

theorem pyStrip_pad {w₁ w₂ : String} (h₁ : ∀ c ∈ w₁.data, pyIsSpace c = true)
    (h₂ : ∀ c ∈ w₂.data, pyIsSpace c = true) (s : String) :
    pyStrip (w₁ ++ s ++ w₂) = pyStrip s := by
  simp only [pyStrip, String.data_append]
  congr 1
  exact trimChars_pad h₁ h₂ s.data

theorem normQ_pad {w₁ w₂ : String} (h₁ : ∀ c ∈ w₁.data, pyIsSpace c = true)
    (h₂ : ∀ c ∈ w₂.data, pyIsSpace c = true) (q : String) :
    pyStrip (pyLower (w₁ ++ q ++ w₂)) = pyStrip (pyLower q) := by
  rw [pyLower_append, pyLower_append, pyLower_of_space h₁, pyLower_of_space h₂]
  exact pyStrip_pad h₁ h₂ (pyLower q)

-- ---------------------------------------------------------------------------
-- Parser line lemmas
-- ---------------------------------------------------------------------------

/-- A well-formed field for the round-trip: non-empty, no surrounding
whitespace, single-line. -/
def goodStr (s : String) : Prop := s ≠ "" ∧ pyStrip s = s ∧ '\n' ∉ s.data

theorem last_not_space {q : String} (hq : pyStrip q = q) (hl : q.data ≠ []) :
    ¬ pyIsSpace (q.data.getLast hl) = true :=
  (List.rdropWhile_eq_self_iff).mp (pyStrip_parts hq).2 hl

theorem trimChars_prefLine {q : String} (hq : pyStrip q = q) (hne : q ≠ "")
    {c₁ : Char} (c₂ : Char) (h₁ : pyIsSpace c₁ = false) :
    trimChars (c₁ :: c₂ :: ' ' :: q.data) = c₁ :: c₂ :: ' ' :: q.data := by
  have hdata : q.data ≠ [] := data_ne_nil hne
  unfold trimChars
  rw [List.dropWhile_cons, h₁]
  simp only [Bool.false_eq_true, if_false]
  rw [List.rdropWhile_eq_self_iff]
  intro hl
  have hcast : (c₁ :: c₂ :: ' ' :: q.data).getLast hl = q.data.getLast hdata := by
    show ([c₁, c₂, ' '] ++ q.data).getLast hl = q.data.getLast hdata
    exact List.getLast_append_of_ne_nil hdata
  rw [hcast]
  exact last_not_space hq hdata

theorem mk3_append_data (c₁ c₂ c₃ : Char) (q : String) :
    (String.mk [c₁, c₂, c₃] ++ q).data = c₁ :: c₂ :: c₃ :: q.data := by
  simp [String.data_append]

theorem pyStrip_prefLine {q : String} (hq : pyStrip q = q) (hne : q ≠ "")
    {c₁ : Char} (c₂ : Char) (h₁ : pyIsSpace c₁ = false) :
    pyStrip (String.mk [c₁, c₂, ' '] ++ q) = String.mk [c₁, c₂, ' '] ++ q := by
  simp only [pyStrip, mk3_append_data, trimChars_prefLine hq hne c₂ h₁]
  rfl

theorem pyStrip_drop2 {q : String} (hq : pyStrip q = q) (c₁ c₂ : Char) :
    pyStrip (pyDrop2 (String.mk [c₁, c₂, ' '] ++ q)) = q := by
  simp only [pyDrop2, mk3_append_data]
  show pyStrip ⟨' ' :: q.data⟩ = q
  have hparts := pyStrip_parts hq
  simp only [pyStrip]
  have htrim : trimChars (' ' :: q.data) = q.data := by
    unfold trimChars
    rw [List.dropWhile_cons]
    simp only [show pyIsSpace ' ' = true from by decide, if_true]
    rw [hparts.1, hparts.2]
  rw [htrim, string_eta]

theorem pyLower_prefLine (c₁ c₂ : Char) (q : String) :
    (pyLower (String.mk [c₁, c₂, ' '] ++ q)).data =
      pyLowerChar c₁ :: pyLowerChar c₂ :: ' ' :: (pyLower q).data := by
  simp only [pyLower, mk3_append_data, List.map_cons]
  rw [show pyLowerChar ' ' = ' ' from by decide]

theorem startsQ_Qline (q : String) :
    pyStartsWith (pyLower (String.mk ['Q', ':', ' '] ++ q)) "q:" = true := by
  simp only [pyStartsWith, pyLower_prefLine]
  rw [show pyLowerChar 'Q' = 'q' from by decide, show pyLowerChar ':' = ':' from by decide]
  show List.isPrefixOf ['q', ':'] ('q' :: ':' :: ' ' :: (pyLower q).data) = true
  simp [List.isPrefixOf_cons₂]

theorem startsQ_Aline (a : String) :
    pyStartsWith (pyLower (String.mk ['A', ':', ' '] ++ a)) "q:" = false := by
  simp only [pyStartsWith, pyLower_prefLine]
  rw [show pyLowerChar 'A' = 'a' from by decide, show pyLowerChar ':' = ':' from by decide]
  show List.isPrefixOf ['q', ':'] ('a' :: ':' :: ' ' :: (pyLower a).data) = false
  simp [List.isPrefixOf_cons₂]

theorem startsA_Aline (a : String) :
    pyStartsWith (pyLower (String.mk ['A', ':', ' '] ++ a)) "a:" = true := by
  simp only [pyStartsWith, pyLower_prefLine]
  rw [show pyLowerChar 'A' = 'a' from by decide, show pyLowerChar ':' = ':' from by decide]
  show List.isPrefixOf ['a', ':'] ('a' :: ':' :: ' ' :: (pyLower a).data) = true
  simp [List.isPrefixOf_cons₂]

theorem qlit_mk : ("Q: " : String) = String.mk ['Q', ':', ' '] := rfl

theorem alit_mk : ("A: " : String) = String.mk ['A', ':', ' '] := rfl

theorem parseLine_Qline (s : ParseState) {q : String} (hq : pyStrip q = q)
    (hne : q ≠ "") :
    parseLine s (String.mk ['Q', ':', ' '] ++ q) =
      if s.cur_q ≠ "" ∧ s.cur_a ≠ "" then
        ⟨s.pairs ++ [(s.cur_q, s.cur_a)], q, "", some true⟩
      else ⟨s.pairs, q, s.cur_a, some true⟩ := by
  obtain ⟨ps, cq, ca, md⟩ := s
  unfold parseLine
  rw [pyStrip_prefLine hq hne ':' (by decide), startsQ_Qline,
    pyStrip_drop2 hq]
  simp only [if_true]

theorem parseLine_Aline (s : ParseState) {a : String} (ha : pyStrip a = a)
    (hne : a ≠ "") :
    parseLine s (String.mk ['A', ':', ' '] ++ a) =
      ⟨s.pairs, s.cur_q, a, some false⟩ := by
  obtain ⟨ps, cq, ca, md⟩ := s
  unfold parseLine
  rw [pyStrip_prefLine ha hne ':' (by decide), startsQ_Aline, startsA_Aline,
    pyStrip_drop2 ha]
  simp only [Bool.false_eq_true, if_false, if_true]

-- ---------------------------------------------------------------------------
-- Line splitting lemmas
-- ---------------------------------------------------------------------------

theorem splitNlAux_no_nl :
    ∀ {l : List Char}, '\n' ∉ l → ∀ acc, splitNlAux l acc = [⟨acc.reverse ++ l⟩] := by
  intro l
  induction l with
  | nil =>
    intro _ acc
    simp [splitNlAux]
  | cons c t ih =>
    intro h acc
    have hc : ¬ c = '\n' := fun hh => h (hh ▸ List.mem_cons_self _ _)
    simp only [splitNlAux]
    rw [if_neg hc, ih (fun hm => h (List.mem_cons_of_mem _ hm)) (c :: acc)]
    congr 2
    simp

theorem splitNlAux_append_nl :
    ∀ {l : List Char}, '\n' ∉ l → ∀ acc rest,
      splitNlAux (l ++ '\n' :: rest) acc = ⟨acc.reverse ++ l⟩ :: splitNlAux rest [] := by
  intro l
  induction l with
  | nil =>
    intro _ acc rest
    simp [splitNlAux]
  | cons c t ih =>
    intro h acc rest
    have hc : ¬ c = '\n' := fun hh => h (hh ▸ List.mem_cons_self _ _)
    calc splitNlAux ((c :: t) ++ '\n' :: rest) acc
        = splitNlAux (t ++ '\n' :: rest) (c :: acc) := by
          simp only [List.cons_append, splitNlAux, if_neg hc]
          rfl
      _ = ⟨(c :: acc).reverse ++ t⟩ :: splitNlAux rest [] :=
          ih (fun hm => h (List.mem_cons_of_mem _ hm)) (c :: acc) rest
      _ = ⟨acc.reverse ++ c :: t⟩ :: splitNlAux rest [] := by
          congr 2
          simp

theorem getLast?_append_right {l m : List Char} (h : m ≠ []) :
    (l ++ m).getLast? = m.getLast? := by
  rw [List.getLast?_append]
  exact Option.or_of_isSome (List.getLast?_isSome.mpr h)

theorem getLast?_ne_nl {a : String} (hnl : '\n' ∉ a.data) :
    a.data.getLast? ≠ some '\n' := by
  intro h
  exact hnl (List.mem_of_getLast?_eq_some h)

theorem block_data (q a : String) :
    ("Q: " ++ q ++ "\nA: " ++ a).data =
      ("Q: " ++ q).data ++ '\n' :: ("A: " ++ a).data := by
  simp only [String.data_append, List.append_assoc]
  rfl

theorem qline_no_nl {q : String} (h : '\n' ∉ q.data) : '\n' ∉ ("Q: " ++ q).data := by
  rw [qlit_mk, mk3_append_data]
  intro hm
  simp only [List.mem_cons] at hm
  rcases hm with h1 | h1 | h1 | h1
  · exact absurd h1 (by decide)
  · exact absurd h1 (by decide)
  · exact absurd h1 (by decide)
  · exact h h1

theorem aline_no_nl {a : String} (h : '\n' ∉ a.data) : '\n' ∉ ("A: " ++ a).data := by
  rw [alit_mk, mk3_append_data]
  intro hm
  simp only [List.mem_cons] at hm
  rcases hm with h1 | h1 | h1 | h1
  · exact absurd h1 (by decide)
  · exact absurd h1 (by decide)
  · exact absurd h1 (by decide)
  · exact h h1

theorem line_data_ne_nil (c₁ c₂ : Char) (q : String) :
    (String.mk [c₁, c₂, ' '] ++ q).data ≠ [] := by
  rw [mk3_append_data]
  simp

theorem parseLine_Qline2 (s : ParseState) {q : String} (hq : pyStrip q = q)
    (hne : q ≠ "") :
    parseLine s ("Q: " ++ q) =
      if s.cur_q ≠ "" ∧ s.cur_a ≠ "" then
        ⟨s.pairs ++ [(s.cur_q, s.cur_a)], q, "", some true⟩
      else ⟨s.pairs, q, s.cur_a, some true⟩ := by
  rw [qlit_mk]
  exact parseLine_Qline s hq hne

theorem parseLine_Aline2 (s : ParseState) {a : String} (ha : pyStrip a = a)
    (hne : a ≠ "") :
    parseLine s ("A: " ++ a) = ⟨s.pairs, s.cur_q, a, some false⟩ := by
  rw [alit_mk]
  exact parseLine_Aline s ha hne

/-- The lines of the serialisation: one Q: line and one A: line per entry. -/
def serLines : List (String × String) → List String
  | [] => []
  | p :: rest => ("Q: " ++ p.1) :: ("A: " ++ p.2) :: serLines rest

/-- A well-formed entry for the round-trip claim. -/
def goodPair (p : String × String) : Prop := goodStr p.1 ∧ goodStr p.2

theorem getLast?_ne_of_not_mem {l : List Char} (hnl : '\n' ∉ l) :
    l.getLast? ≠ some '\n' := fun h => hnl (List.mem_of_getLast?_eq_some h)

theorem ser_cons_cons (p x : String × String) (t : List (String × String)) :
    serializeFaq (p :: x :: t) =
      ("Q: " ++ p.1 ++ "\nA: " ++ p.2) ++ "\n" ++ serializeFaq (x :: t) := rfl

theorem ser_single (p : String × String) :
    serializeFaq [p] = "Q: " ++ p.1 ++ "\nA: " ++ p.2 := rfl

theorem ser_cons_data (p : String × String) (x : String × String)
    (t : List (String × String)) :
    (serializeFaq (p :: x :: t)).data =
      ("Q: " ++ p.1).data ++ '\n' ::
        (("A: " ++ p.2).data ++ '\n' :: (serializeFaq (x :: t)).data) := by
  rw [ser_cons_cons]
  simp only [String.data_append, List.append_assoc]
  rfl

theorem ser_data_ne_nil (p : String × String) (t : List (String × String)) :
    (serializeFaq (p :: t)).data ≠ [] := by
  cases t with
  | nil =>
    rw [ser_single, block_data]
    simp
  | cons x t2 =>
    rw [ser_cons_data]
    simp

theorem splitNl_serialize :
    ∀ (entries : List (String × String)), (∀ p ∈ entries, goodPair p) →
      entries ≠ [] →
      splitNlAux (serializeFaq entries).data [] = serLines entries := by
  intro entries
  induction entries with
  | nil => intro _ h; exact absurd rfl h
  | cons p rest ih =>
    intro hgood _
    have hg : goodPair p := hgood _ (List.mem_cons_self _ _)
    have hqnl : '\n' ∉ ("Q: " ++ p.1).data := qline_no_nl hg.1.2.2
    have hanl : '\n' ∉ ("A: " ++ p.2).data := aline_no_nl hg.2.2.2
    cases rest with
    | nil =>
      rw [ser_single, block_data, splitNlAux_append_nl hqnl,
        splitNlAux_no_nl hanl]
      show _ = ("Q: " ++ p.1) :: ("A: " ++ p.2) :: serLines []
      simp [serLines, string_eta]
      exact ⟨rfl, rfl⟩
    | cons x t =>
      rw [ser_cons_data, splitNlAux_append_nl hqnl, splitNlAux_append_nl hanl,
        ih (fun y hy => hgood y (List.mem_cons_of_mem _ hy)) (by simp)]
      show _ = ("Q: " ++ p.1) :: ("A: " ++ p.2) :: serLines (x :: t)
      simp [string_eta]
      exact ⟨rfl, rfl⟩

theorem ser_getLast?_ne_nl :
    ∀ (entries : List (String × String)), (∀ p ∈ entries, goodPair p) →
      entries ≠ [] →
      (serializeFaq entries).data.getLast? ≠ some '\n' := by
  intro entries
  induction entries with
  | nil => intro _ h; exact absurd rfl h
  | cons p rest ih =>
    intro hgood _
    have hg : goodPair p := hgood _ (List.mem_cons_self _ _)
    have hanl : '\n' ∉ ("A: " ++ p.2).data := aline_no_nl hg.2.2.2
    have hadata : ("A: " ++ p.2).data ≠ [] := by
      rw [alit_mk]
      exact line_data_ne_nil _ _ _
    cases rest with
    | nil =>
      rw [ser_single, block_data, getLast?_append_right (by simp),
        show ('\n' :: ("A: " ++ p.2).data) = ['\n'] ++ ("A: " ++ p.2).data from rfl,
        getLast?_append_right hadata]
      exact getLast?_ne_of_not_mem hanl
    | cons x t =>
      rw [ser_cons_data, getLast?_append_right (by simp),
        show ('\n' :: (("A: " ++ p.2).data ++ '\n' :: (serializeFaq (x :: t)).data))
          = ['\n'] ++ (("A: " ++ p.2).data ++ '\n' :: (serializeFaq (x :: t)).data) from rfl,
        getLast?_append_right (by simp), getLast?_append_right (by simp),
        show ('\n' :: (serializeFaq (x :: t)).data)
          = ['\n'] ++ (serializeFaq (x :: t)).data from rfl,
        getLast?_append_right (ser_data_ne_nil x t)]
      exact ih (fun y hy => hgood y (List.mem_cons_of_mem _ hy)) (by simp)

theorem pySplitlines_serialize (entries : List (String × String))
    (hgood : ∀ p ∈ entries, goodPair p) (hne : entries ≠ []) :
    pySplitlines (serializeFaq entries) = serLines entries := by
  obtain ⟨p, rest, rfl⟩ : ∃ p rest, entries = p :: rest := by
    cases entries with
    | nil => exact absurd rfl hne
    | cons p rest => exact ⟨p, rest, rfl⟩
  unfold pySplitlines
  rw [if_neg (by simp [ser_data_ne_nil p rest])]
  rw [if_neg (ser_getLast?_ne_nl _ hgood hne)]
  exact splitNl_serialize _ hgood hne

theorem foldl_parseLine_serLines :
    ∀ (entries : List (String × String)), (∀ p ∈ entries, goodPair p) →
      ∀ (s : ParseState), s.cur_q ≠ "" → s.cur_a ≠ "" →
      finalizePairs (List.foldl parseLine s (serLines entries)) =
        s.pairs ++ (s.cur_q, s.cur_a) :: entries := by
  intro entries
  induction entries with
  | nil =>
    intro _ s hq ha
    show finalizePairs s = _
    unfold finalizePairs
    rw [if_pos ⟨hq, ha⟩]
  | cons p rest ih =>
    intro hgood s hq ha
    have hg : goodPair p := hgood _ (List.mem_cons_self _ _)
    show finalizePairs
        (List.foldl parseLine s (("Q: " ++ p.1) :: ("A: " ++ p.2) :: serLines rest)) = _
    rw [List.foldl_cons, parseLine_Qline2 s hg.1.2.1 hg.1.1, if_pos ⟨hq, ha⟩,
      List.foldl_cons, parseLine_Aline2 _ hg.2.2.1 hg.2.1]
    have hstep := ih (fun y hy => hgood y (List.mem_cons_of_mem _ hy))
      ⟨s.pairs ++ [(s.cur_q, s.cur_a)], p.1, p.2, some false⟩ hg.1.1 hg.2.1
    dsimp only at hstep ⊢
    rw [hstep]
    simp

theorem parse_serialize_roundtrip (entries : List (String × String))
    (hgood : ∀ p ∈ entries, goodPair p) :
    parseFaqText (serializeFaq entries) = entries := by
  cases entries with
  | nil => rfl
  | cons p rest =>
    have hg : goodPair p := hgood _ (List.mem_cons_self _ _)
    unfold parseFaqText
    rw [pySplitlines_serialize _ hgood (by simp)]
    show finalizePairs
        (List.foldl parseLine initState (("Q: " ++ p.1) :: ("A: " ++ p.2) :: serLines rest)) = _
    rw [List.foldl_cons, parseLine_Qline2 initState hg.1.2.1 hg.1.1,
      if_neg (by simp [initState]), List.foldl_cons,
      parseLine_Aline2 _ hg.2.2.1 hg.2.1]
    have hstep := foldl_parseLine_serLines rest
      (fun y hy => hgood y (List.mem_cons_of_mem _ hy))
      ⟨[], p.1, p.2, some false⟩ hg.1.1 hg.2.1
    dsimp only [initState] at hstep ⊢
    rw [hstep]
    simp

-- ---------------------------------------------------------------------------
-- Orphan-answer parsing lemmas
-- ---------------------------------------------------------------------------

theorem data_AQ (a q : String) :
    ("A: " ++ a ++ "\nQ: " ++ q).data =
      ("A: " ++ a).data ++ '\n' :: ("Q: " ++ q).data := by
  simp only [String.data_append, List.append_assoc]
  rfl

theorem data_AQA (a q a2 : String) :
    ("A: " ++ a ++ "\nQ: " ++ q ++ "\nA: " ++ a2).data =
      ("A: " ++ a).data ++ '\n' :: (("Q: " ++ q).data ++ '\n' :: ("A: " ++ a2).data) := by
  simp only [String.data_append, List.append_assoc]
  rfl

theorem splitlines_AQ (a q : String) (hanl : '\n' ∉ a.data) (hqnl : '\n' ∉ q.data) :
    pySplitlines ("A: " ++ a ++ "\nQ: " ++ q) = ["A: " ++ a, "Q: " ++ q] := by
  have hanl2 : '\n' ∉ ("A: " ++ a).data := aline_no_nl hanl
  have hqnl2 : '\n' ∉ ("Q: " ++ q).data := qline_no_nl hqnl
  have hqdata : ("Q: " ++ q).data ≠ [] := by
    rw [qlit_mk]
    exact line_data_ne_nil _ _ _
  unfold pySplitlines
  rw [if_neg (by rw [data_AQ]; simp)]
  rw [if_neg (by
    rw [data_AQ, getLast?_append_right (by simp),
      show ('\n' :: ("Q: " ++ q).data) = ['\n'] ++ ("Q: " ++ q).data from rfl,
      getLast?_append_right hqdata]
    exact getLast?_ne_of_not_mem hqnl2)]
  rw [data_AQ, splitNlAux_append_nl hanl2, splitNlAux_no_nl hqnl2]
  simp [string_eta]
  exact ⟨rfl, rfl⟩

theorem splitlines_AQA (a q a2 : String) (hanl : '\n' ∉ a.data)
    (hqnl : '\n' ∉ q.data) (hanl2 : '\n' ∉ a2.data) :
    pySplitlines ("A: " ++ a ++ "\nQ: " ++ q ++ "\nA: " ++ a2) =
      ["A: " ++ a, "Q: " ++ q, "A: " ++ a2] := by
  have ha1 : '\n' ∉ ("A: " ++ a).data := aline_no_nl hanl
  have hq1 : '\n' ∉ ("Q: " ++ q).data := qline_no_nl hqnl
  have ha2 : '\n' ∉ ("A: " ++ a2).data := aline_no_nl hanl2
  have hadata : ("A: " ++ a2).data ≠ [] := by
    rw [alit_mk]
    exact line_data_ne_nil _ _ _
  unfold pySplitlines
  rw [if_neg (by rw [data_AQA]; simp)]
  rw [if_neg (by
    rw [data_AQA, getLast?_append_right (by simp),
      show ('\n' :: (("Q: " ++ q).data ++ '\n' :: ("A: " ++ a2).data))
        = ['\n'] ++ (("Q: " ++ q).data ++ '\n' :: ("A: " ++ a2).data) from rfl,
      getLast?_append_right (by simp), getLast?_append_right (by simp),
      show ('\n' :: ("A: " ++ a2).data) = ['\n'] ++ ("A: " ++ a2).data from rfl,
      getLast?_append_right hadata]
    exact getLast?_ne_of_not_mem ha2)]
  rw [data_AQA, splitNlAux_append_nl ha1, splitNlAux_append_nl hq1,
    splitNlAux_no_nl ha2]
  simp [string_eta]
  exact ⟨rfl, rfl, rfl⟩

theorem parse_orphan_pair {a q : String} (hga : goodStr a) (hgq : goodStr q) :
    parseFaqText ("A: " ++ a ++ "\nQ: " ++ q) = [(q, a)] := by
  unfold parseFaqText
  rw [splitlines_AQ a q hga.2.2 hgq.2.2]
  rw [List.foldl_cons, parseLine_Aline2 initState hga.2.1 hga.1,
    List.foldl_cons, parseLine_Qline2 _ hgq.2.1 hgq.1]
  dsimp only [initState]
  rw [if_neg (by simp)]
  show finalizePairs ⟨[], q, a, some true⟩ = [(q, a)]
  unfold finalizePairs
  rw [if_pos ⟨hgq.1, hga.1⟩]
  rfl

theorem parse_orphan_overwrite {a q a2 : String} (hga : goodStr a)
    (hgq : goodStr q) (hga2 : goodStr a2) :
    parseFaqText ("A: " ++ a ++ "\nQ: " ++ q ++ "\nA: " ++ a2) = [(q, a2)] := by
  unfold parseFaqText
  rw [splitlines_AQA a q a2 hga.2.2 hgq.2.2 hga2.2.2]
  rw [List.foldl_cons, parseLine_Aline2 initState hga.2.1 hga.1,
    List.foldl_cons, parseLine_Qline2 _ hgq.2.1 hgq.1]
  dsimp only [initState]
  rw [if_neg (by simp)]
  rw [List.foldl_cons, parseLine_Aline2 _ hga2.2.1 hga2.1]
  show finalizePairs ⟨[], q, a2, some false⟩ = [(q, a2)]
  unfold finalizePairs
  rw [if_pos ⟨hgq.1, hga2.1⟩]
  rfl

instance (s : String) : Decidable (goodStr s) := by
  unfold goodStr
  infer_instance

instance (p : String × String) : Decidable (goodPair p) := by
  unfold goodPair
  infer_instance

-- ---------------------------------------------------------------------------
-- Claim theorems
-- ---------------------------------------------------------------------------

/-- Claim C1: whenever the matcher score is at least 0.6, the routing
decision is the matcher answer with source FAQ and escalate false, and the
generation collaborator is never invoked (no escalation keyword check is
applied on this branch, for any query). -/
theorem router_fast_path (q : String) (faqs : List (String × String))
    (gen : String → String → String)
    (h : mkRat 6 10 ≤ (faq_match q faqs).2) :
    decideRoute q faqs gen =
      ({ answerText := (faq_match q faqs).1, source := Source.FAQ,
         escalate := false }, []) := by
  simp only [decideRoute]
  rw [if_pos h]

set_option maxRecDepth 8000 in
/-- Witness for C1: a query containing the escalation keyword broken that
substring-matches a default FAQ question takes the fast path with
escalate false and no generation call. -/
theorem router_fast_path_witness :
    mkRat 6 10 ≤
      (faq_match "My printer is broken. What are the office working hours?"
        load_faq_items).2 ∧
    decideRoute "My printer is broken. What are the office working hours?"
        load_faq_items (fun _ _ => "gen") =
      ({ answerText :=
           (faq_match "My printer is broken. What are the office working hours?"
             load_faq_items).1,
         source := Source.FAQ, escalate := false }, []) :=
  ⟨by decide, router_fast_path _ _ _ (by decide)⟩

/-- Claim C2 (counterexample): a query whose token set is contained in an
entry token set without any substring relation scores 1, which exceeds
0.99, so the score is not always in [0, 0.99]. -/
theorem match_score_range_cex :
    (faq_match "a b" [("b a", "x")]).2 = 1 ∧
    ¬ ((faq_match "a b" [("b a", "x")]).2 ≤ mkRat 99 100) := by decide

/-- Claim C2 (amended): for every query and knowledge base the matcher
score lies in the closed interval [0, 1]. -/
theorem match_score_range_amended (q : String) (faqs : List (String × String)) :
    0 ≤ (faq_match q faqs).2 ∧ (faq_match q faqs).2 ≤ 1 :=
  faqMatchGo_score_bounds _ faqs "" 0 (le_refl 0) zero_le_one

/-- Claim C3: with score below 0.6 the generation collaborator is invoked
exactly once, with the query and the context built from at most the first
ten knowledge-base entries rendered as Q:/A: blocks. -/
theorem router_slow_path (q : String) (faqs : List (String × String))
    (gen : String → String → String)
    (h : (faq_match q faqs).2 < mkRat 6 10) :
    (decideRoute q faqs gen).2 =
      [(q, joinNl ((faqs.take 10).map
        (fun p => "Q: " ++ p.1 ++ "\nA: " ++ p.2)))] := by
  simp only [decideRoute]
  rw [if_neg (not_le.mpr h)]
  rfl

set_option maxRecDepth 8000 in
/-- Witness for C3: an unmatched query goes to the generation collaborator
exactly once with the rendered default knowledge base as context. -/
theorem router_slow_path_witness :
    (faq_match "zz" load_faq_items).2 < mkRat 6 10 ∧
    (decideRoute "zz" load_faq_items (fun _ _ => "gen")).2 =
      [("zz", joinNl ((load_faq_items.take 10).map
        (fun p => "Q: " ++ p.1 ++ "\nA: " ++ p.2)))] :=
  ⟨by decide, router_slow_path _ _ _ (by decide)⟩

/-- Claim C4: on the low-confidence branch, escalate is true exactly when
the lowercased query contains a query keyword or the lowercased generated
answer contains an answer keyword; in particular a query containing
urgent in any case escalates. -/
theorem escalation_low_confidence (q : String) (faqs : List (String × String))
    (gen : String → String → String)
    (h : (faq_match q faqs).2 < mkRat 6 10) :
    ((decideRoute q faqs gen).1.escalate = true ↔
      ((∃ w ∈ q_kw, pyIn w (pyLower q) = true) ∨
       (∃ w ∈ a_kw, pyIn w (pyLower (gen q (contextText faqs))) = true))) ∧
    (pyIn "urgent" (pyLower q) = true →
      (decideRoute q faqs gen).1.escalate = true) := by
  have hesc : (decideRoute q faqs gen).1.escalate =
      should_escalate q (gen q (contextText faqs)) := by
    simp only [decideRoute]
    rw [if_neg (not_le.mpr h)]
  constructor
  · rw [hesc]
    simp only [should_escalate, Bool.or_eq_true, List.any_eq_true]
  · intro hu
    rw [hesc]
    simp only [should_escalate, Bool.or_eq_true, List.any_eq_true]
    left
    exact ⟨"urgent", by simp [q_kw], hu⟩

/-- Witness for C4: an uppercase URGENT query with an empty knowledge base
escalates on the generated branch. -/
theorem escalation_low_confidence_witness :
    (faq_match "URGENT printer issue" [("zz", "b")]).2 < mkRat 6 10 ∧
    pyIn "urgent" (pyLower "URGENT printer issue") = true ∧
    (decideRoute "URGENT printer issue" [("zz", "b")]
      (fun _ _ => "hello")).1.escalate = true :=
  ⟨by decide, by decide,
    (escalation_low_confidence _ _ _ (by decide)).2 (by decide)⟩

/-- Claim C5: the scan returns the first substring-matching entry with
score 0.99 ignoring all later entries, and with no substring match it
returns the maximum overlap score with the answer of the first entry
attaining it (ties keep the earlier entry, zero maximum gives ("", 0)). -/
theorem matcher_scan_order (q : String) :
    (∀ (pre : List (String × String)) (e : String × String)
        (post : List (String × String)),
        (∀ x ∈ pre, substrB (normQ q) x = false) → substrB (normQ q) e = true →
        faq_match q (pre ++ e :: post) = (e.2, mkRat 99 100)) ∧
    (∀ faqs : List (String × String),
        (∀ e ∈ faqs, substrB (normQ q) e = false) →
        faq_match q faqs = matcherNoSubSpec (normQ q) faqs) := by
  constructor
  · intro pre e post hpre he
    exact faqMatchGo_shortCircuit (normQ q) e post he pre "" 0 hpre
  · intro faqs hsub
    show faqMatchGo (normQ q) faqs "" 0 = _
    rw [faqMatchGo_noSub (normQ q) faqs "" 0 hsub (le_refl 0)]
    unfold matcherNoSubSpec
    have h0 := maxOverlap_nonneg (normQ q) faqs
    by_cases hm : maxOverlap (normQ q) faqs = 0
    · rw [if_pos (le_of_eq hm), if_pos hm]
    · rw [if_neg (fun hle => hm (le_antisymm hle h0)), if_neg hm]

/-- Witness for C5: the first substring-matching entry wins past a
non-matching entry, and a knowledge base with no substring or token
overlap yields the empty answer with score 0. -/
theorem matcher_scan_order_witness :
    faq_match "x" [("zz", "b"), ("x", "a")] = ("a", mkRat 99 100) ∧
    faq_match "x" [("zz", "b")] = ("", 0) :=
  ⟨(matcher_scan_order "x").1 [("zz", "b")] ("x", "a") [] (by decide) (by decide),
   by
    rw [(matcher_scan_order "x").2 [("zz", "b")] (by decide)]
    decide⟩

/-- Claim C6 (counterexample): adding trailing whitespace to an entry
question changes the match result, because the source lowercases but does
not strip entry questions, so results are not invariant under entry-side
padding. -/
theorem matcher_normalization_cex :
    faq_match "hello hi" [("hi", "a")] = ("a", mkRat 99 100) ∧
    faq_match "hello hi" [("hi ", "a")] = ("a", mkRat 1 2) ∧
    faq_match "hello hi" [("hi", "a")] ≠ faq_match "hello hi" [("hi ", "a")] := by
  decide

/-- Claim C6 (amended): the matcher lowercases and strips the query but
only lowercases entry questions, so match results are invariant under
adding leading or trailing whitespace to the query. -/
theorem matcher_normalization_amended (w₁ w₂ q : String)
    (faqs : List (String × String))
    (h₁ : ∀ c ∈ w₁.data, pyIsSpace c = true)
    (h₂ : ∀ c ∈ w₂.data, pyIsSpace c = true) :
    faq_match (w₁ ++ q ++ w₂) faqs = faq_match q faqs := by
  unfold faq_match
  rw [normQ_pad h₁ h₂ q]

/-- Witness for C6 (amended): padding the query with spaces does not
change the match result. -/
theorem matcher_normalization_amended_witness :
    (∀ c ∈ ("  " : String).data, pyIsSpace c = true) ∧
    faq_match ("  " ++ "hi zz" ++ " ") [("a", "b")] =
      faq_match "hi zz" [("a", "b")] :=
  ⟨by decide,
    matcher_normalization_amended "  " " " "hi zz" [("a", "b")]
      (by decide) (by decide)⟩

/-- Claim C7 (counterexample): a query equal to the second entry question
returns score 0.99 but the FIRST entry answer, because an earlier entry
already stands in a substring relation, so the same-entry answer is not
always returned. -/
theorem matcher_exact_query_cex :
    (faq_match "ab" [("a", "ans1"), ("ab", "ans2")]).2 = mkRat 99 100 ∧
    (faq_match "ab" [("a", "ans1"), ("ab", "ans2")]).1 = "ans1" ∧
    (faq_match "ab" [("a", "ans1"), ("ab", "ans2")]).1 ≠ "ans2" := by decide

/-- Claim C7 (amended): a query equal to an entry question always scores
0.99; the answer is that entry answer provided no earlier entry stands in
a substring relation with the normalized query. -/
theorem matcher_exact_query_amended (q a : String) :
    (∀ faqs : List (String × String), (q, a) ∈ faqs →
      (faq_match q faqs).2 = mkRat 99 100) ∧
    (∀ (pre post : List (String × String)),
      (∀ x ∈ pre, substrB (normQ q) x = false) →
      faq_match q (pre ++ (q, a) :: post) = (a, mkRat 99 100)) := by
  have hself : substrB (normQ q) (q, a) = true := by
    unfold substrB
    rw [show pyIn (normQ q) (pyLower q) = true from pyIn_pyStrip (pyLower q)]
    simp
  constructor
  · intro faqs hmem
    exact faqMatchGo_score99_of_mem (normQ q) (q, a) hself faqs "" 0 hmem
  · intro pre post hpre
    exact faqMatchGo_shortCircuit (normQ q) (q, a) post hself pre "" 0 hpre

/-- Witness for C7 (amended): an exact query scores 0.99, and when no
earlier entry matches, its own answer is returned. -/
theorem matcher_exact_query_amended_witness :
    (faq_match "qq" [("zz", "b"), ("qq", "a")]).2 = mkRat 99 100 ∧
    faq_match "qq" [("zz", "b"), ("qq", "a")] = ("a", mkRat 99 100) :=
  ⟨(matcher_exact_query_amended "qq" "a").1 [("zz", "b"), ("qq", "a")]
      (by decide),
   (matcher_exact_query_amended "qq" "a").2 [("zz", "b")] [] (by decide)⟩

/-- Claim C8: when parsing the uploaded text yields no pairs, the upload
handler signals the parse error and leaves the previous knowledge base
completely unchanged. -/
theorem upload_parse_error_atomic (raw : String) (old : List (String × String))
    (h : parseFaqText raw = []) :
    uploadFaq raw old = (old, true) := by
  unfold uploadFaq
  rw [if_pos h]

/-- Witness for C8: text with no Q:/A: lines parses to nothing and leaves
the knowledge base untouched with the error flag set. -/
theorem upload_parse_error_atomic_witness :
    parseFaqText "no pairs here" = [] ∧
    uploadFaq "no pairs here" [("k", "v")] = ([("k", "v")], true) :=
  ⟨by decide, upload_parse_error_atomic _ _ (by decide)⟩

/-- Claim C9 (counterexample): an entry whose answer spans two lines, none
of which starts with Q: or A:, does not round-trip: the parser rejoins the
lines with a space. -/
theorem upload_roundtrip_cex :
    parseFaqText (serializeFaq [("q", "a\nb")]) = [("q", "a b")] ∧
    parseFaqText (serializeFaq [("q", "a\nb")]) ≠ [("q", "a\nb")] := by decide

/-- Claim C9 (amended): serialising and re-parsing reproduces the entries
exactly when every question and answer is non-empty, single-line, and free
of leading or trailing whitespace. -/
theorem upload_roundtrip_amended (entries : List (String × String))
    (hgood : ∀ p ∈ entries, goodPair p) :
    parseFaqText (serializeFaq entries) = entries :=
  parse_serialize_roundtrip entries hgood

/-- Witness for C9 (amended): a two-entry knowledge base round-trips. -/
theorem upload_roundtrip_amended_witness :
    (∀ p ∈ [("q1", "a1"), ("q2", "a2")], goodPair p) ∧
    parseFaqText (serializeFaq [("q1", "a1"), ("q2", "a2")]) =
      [("q1", "a1"), ("q2", "a2")] :=
  ⟨by decide, upload_roundtrip_amended [("q1", "a1"), ("q2", "a2")] (by decide)⟩

/-- Claim C10: an A: line before any Q: line is not discarded: the orphan
answer survives the next Q: line (no flush happens because the question was
empty) and is emitted paired with that question, unless a later A: line
overwrites it. -/
theorem orphan_answer_retained (a q a2 : String)
    (hga : goodStr a) (hgq : goodStr q) (hga2 : goodStr a2) :
    parseFaqText ("A: " ++ a ++ "\nQ: " ++ q) = [(q, a)] ∧
    parseFaqText ("A: " ++ a ++ "\nQ: " ++ q ++ "\nA: " ++ a2) = [(q, a2)] :=
  ⟨parse_orphan_pair hga hgq, parse_orphan_overwrite hga hgq hga2⟩

/-- Witness for C10: the orphan answer x is paired with the next question
y, and a later answer line z overwrites it. -/
theorem orphan_answer_retained_witness :
    parseFaqText ("A: " ++ "x" ++ "\nQ: " ++ "y") = [("y", "x")] ∧
    parseFaqText ("A: " ++ "x" ++ "\nQ: " ++ "y" ++ "\nA: " ++ "z") =
      [("y", "z")] :=
  orphan_answer_retained "x" "y" "z" (by decide) (by decide) (by decide)
